import Mathlib

/-!
Shallow embedding of the UltrAI pipeline core (src/ultrai/) and proofs of
the specification claims about it.

Modelling conventions:
* Python strings that are manipulated character-wise (draft texts, run ids,
  path components) are `List Char`; model identifiers, which are only
  compared for equality and concatenated, are `String`.
* Python ints are `Nat` (all the quantities involved — counts, milliseconds,
  character lengths — are non-negative in the source).
* The synthesis-timeout arithmetic is `float` in the source; it is embedded
  over `ℚ`.  Every constant produced by the computation
  (60, 72, 90, 108, 120, 144, 180, 216, the thresholds 90/120/180/300 and
  the bucket bounds 1000/3000/5000) compares identically under IEEE-754
  double and exact rational arithmetic, so `ℚ` is a faithful abstraction
  for the claimed comparisons.
* Network calls are oracles: an outcome parameter says, for each attempted
  call, whether the full retry loop of the source ultimately returned text
  or raised, and carries the error message (`Except (List Char) _`).
* The fan-out loops of R1/R2 append results in completion order, which the
  source explicitly leaves unspecified; the embedding uses slot order.  All
  claims settled here are invariant under permutation of the output list
  (they speak of sets, counts, and per-slot pairing by model id).
-/

namespace UltrAI

/-! ### R3 synthesis timeout and truncation — src/ultrai/ultrai_synthesis.py -/

/-- The `length_factor` selected from `context_len` by the `if/elif` chain of
`calculate_synthesis_timeout` (ultrai_synthesis.py lines 77-89). -/
def length_factor_base (contextLen : Nat) : ℚ :=
  if contextLen < 1000 then 1
  else if contextLen < 3000 then 3/2
  else if contextLen < 5000 then 2
  else 3

/-- Embeds `calculate_synthesis_timeout`, as a function of `len(peer_context)` and
`num_meta_drafts` (ultrai_synthesis.py lines 55-100): bucketed base factor,
`*= 1.2` when more than 3 drafts, `60 * factor`, clamped to `[60, 300]`. -/
def calculate_synthesis_timeout_len (contextLen numMetaDrafts : Nat) : ℚ :=
  let lf := length_factor_base contextLen
  let lf := if numMetaDrafts > 3 then lf * (6/5) else lf
  let timeout := 60 * lf
  max 60 (min 300 timeout)

/-- Wrapper: `calculate_synthesis_timeout` on the actual string argument. -/
def calculate_synthesis_timeout (peerContext : List Char) (numMetaDrafts : Nat) : ℚ :=
  calculate_synthesis_timeout_len peerContext.length numMetaDrafts

/-- The preliminary timeout computed at ultrai_synthesis.py lines 211-214:
the context argument is the fixed worst-case estimate `"x" * 10000`. -/
def timeout_prelim (numMetaDrafts : Nat) : ℚ :=
  calculate_synthesis_timeout (List.replicate 10000 'x') numMetaDrafts

/-- The per-draft character cap chosen from the preliminary timeout
(ultrai_synthesis.py lines 218-225). -/
def max_chars_per_draft (numMetaDrafts : Nat) : Nat :=
  if timeout_prelim numMetaDrafts ≥ 180 then 2000
  else if timeout_prelim numMetaDrafts ≥ 120 then 1200
  else if timeout_prelim numMetaDrafts ≥ 90 then 800
  else 500

/-- Per-draft truncation (ultrai_synthesis.py line 235):
`text[:cap] if len(text) > cap else text`. -/
def truncateDraft (cap : Nat) (text : List Char) : List Char :=
  if text.length > cap then text.take cap else text

/-! ### Response records — the `{round, model, text, ms, error?}` dicts -/

/-- One response record as written to `03_initial.json` / `04_meta.json` /
`05_ultrai.json`.  Success records of the source carry no `error` key;
the embedding uses `error = false` for them (`d.get("error")` is falsy). -/
structure Response where
  round : String
  model : String
  text : List Char
  ms : Nat
  error : Bool
deriving Repr, DecidableEq

/-- The text/elapsed pair a gateway call returns on success. -/
structure GatewaySuccess where
  text : List Char
  ms : Nat
deriving Repr, DecidableEq

/-- The per-draft summary line of the R3 context builder
(ultrai_synthesis.py lines 228-237): `- {model}: ERROR` for an error draft,
otherwise `- {model}: {snippet}` with the truncated text. -/
def draftSummary (cap : Nat) (d : Response) : List Char :=
  if d.error then "- ".data ++ d.model.data ++ ": ERROR".data
  else "- ".data ++ d.model.data ++ ": ".data ++ truncateDraft cap d.text

/-- Builds `peer_context = "\n".join(peer_summaries)` (ultrai_synthesis.py line 238). -/
def buildPeerContext (cap : Nat) (drafts : List Response) : List Char :=
  List.intercalate "\n".data (drafts.map (draftSummary cap))

/-! ### Activation resolver — src/ultrai/active_llms.py -/

/-- The five named cocktails. -/
inductive Cocktail where
  | LUXE | PREMIUM | SPEEDY | BUDGET | DEPTH
deriving Repr, DecidableEq

/-- Table `PRIMARY_MODELS` (active_llms.py lines 28-54). -/
def PRIMARY_MODELS : Cocktail → List String
  | .LUXE => ["openai/gpt-4o", "anthropic/claude-sonnet-4.5",
              "google/gemini-2.0-flash-exp:free"]
  | .PREMIUM => ["anthropic/claude-3.7-sonnet", "openai/gpt-4o",
                 "google/gemini-2.5-pro"]
  | .SPEEDY => ["openai/gpt-4o-mini", "anthropic/claude-3-haiku",
                "x-ai/grok-3-mini"]
  | .BUDGET => ["openai/gpt-3.5-turbo", "google/gemini-2.0-flash-exp:free",
                "qwen/qwen-2.5-72b-instruct"]
  | .DEPTH => ["anthropic/claude-3.7-sonnet", "openai/gpt-4o",
               "meta-llama/llama-3.3-70b-instruct"]

/-- Table `FALLBACK_MODELS` (active_llms.py lines 63-92), index-aligned with
`PRIMARY_MODELS`. -/
def FALLBACK_MODELS : Cocktail → List String
  | .LUXE => ["openai/chatgpt-4o-latest", "anthropic/claude-3.7-sonnet",
              "google/gemini-2.5-pro"]
  | .PREMIUM => ["x-ai/grok-3", "openai/chatgpt-4o-latest",
                 "meta-llama/llama-3.3-70b-instruct"]
  | .SPEEDY => ["google/gemini-2.0-flash-exp:free", "qwen/qwen-2.5-72b-instruct",
                "meta-llama/llama-3.3-70b-instruct"]
  | .BUDGET => ["meta-llama/llama-3.3-70b-instruct", "openai/gpt-4o-mini",
                "anthropic/claude-3-haiku"]
  | .DEPTH => ["openai/chatgpt-4o-latest", "anthropic/claude-sonnet-4.5",
               "google/gemini-2.0-flash-exp:free"]

/-- Constant `QUORUM = 2` (active_llms.py line 106). -/
def QUORUM : Nat := 2

/-- State threaded through the slot-resolution loop of `prepare_active_llms`:
the `resolved_primary` list and the `reasons` mapping.  `reasons` is a
Python dict keyed by the original primary model; as every cocktail's
PRIMARY list is duplicate-free, an association list in slot order is an
exact model of it. -/
structure SlotResolution where
  resolved : List String
  reasons : List (String × String)
deriving Repr, DecidableEq

/-- Step 3/4 of the loop (active_llms.py lines 212-228): take the first
member of the READY pool not yet chosen, else record the no-replacement
reason.  The recorded string is the source's literal
`"NOT READY_NO_REPLACEMENT"` (space after NOT). -/
def altChoice (pool : List String) (p : String) (st : SlotResolution) : SlotResolution :=
  match pool.find? (fun m => !st.resolved.contains m) with
  | some alt => ⟨st.resolved ++ [alt], st.reasons ++ [(p, "REPLACED_ALT:" ++ alt)]⟩
  | none => ⟨st.resolved, st.reasons ++ [(p, "NOT READY_NO_REPLACEMENT")]⟩

/-- One iteration of the `for idx, primary_model in enumerate(...)` loop
(active_llms.py lines 187-228).  `fb != ""` mirrors the Python truthiness
test `if fallback_model and ...` (an empty id is falsy). -/
def slotStep (ready fallbacks pool : List String) (idx : Nat) (p : String)
    (st : SlotResolution) : SlotResolution :=
  if ready.contains p && !st.resolved.contains p then
    ⟨st.resolved ++ [p], st.reasons ++ [(p, "PRIMARY_READY")]⟩
  else
    match fallbacks.get? idx with
    | some fb =>
        if fb != "" && ready.contains fb && !st.resolved.contains fb then
          ⟨st.resolved ++ [fb], st.reasons ++ [(p, "REPLACED_FALLBACK:" ++ fb)]⟩
        else altChoice pool p st
    | none => altChoice pool p st

/-- The whole resolution loop over the PRIMARY slots. -/
def resolveSlotsGo (ready fallbacks pool : List String) :
    List String → Nat → SlotResolution → SlotResolution
  | [], _, st => st
  | p :: rest, idx, st =>
      resolveSlotsGo ready fallbacks pool rest (idx + 1)
        (slotStep ready fallbacks pool idx p st)

/-- Computes `ready_pool` (active_llms.py lines 182-185) and runs the loop, for a given
cocktail.  Membership tests against the Python `set(ready_list)` are list
membership here (only membership is ever used). -/
def cocktailResolve (c : Cocktail) (readyList : List String) : SlotResolution :=
  let primaries := PRIMARY_MODELS c
  let fallbacks := FALLBACK_MODELS c
  let pool := (primaries ++ fallbacks).filter readyList.contains
  resolveSlotsGo readyList fallbacks pool primaries 0 ⟨[], []⟩

/-- The two failure modes of `prepare_active_llms`: the
"PRIMARY set cannot be satisfied" raise (line 236) and the quorum raise
(line 251). -/
inductive ActivateError where
  | unsatisfiable
  | lowQuorum
deriving Repr, DecidableEq

/-- Contents of `02_activate.json` that the claims need. -/
structure ActivateResult where
  activeList : List String
  backupList : List String
  reasons : List (String × String)
deriving Repr, DecidableEq

/-- Embeds `prepare_active_llms` (active_llms.py lines 109-278) from the point the
ready list and cocktail are loaded: resolve slots, fail if fewer than 3,
take 3 as `activeList`, filter the unconsumed READY fallbacks as
`backupList`, fail if below quorum. -/
def prepare_active_llms (c : Cocktail) (readyList : List String) :
    Except ActivateError ActivateResult :=
  let st := cocktailResolve c readyList
  if st.resolved.length < 3 then .error .unsatisfiable
  else
    let active := st.resolved.take 3
    let backup := (FALLBACK_MODELS c).filter
      (fun m => readyList.contains m && !active.contains m)
    if active.length < QUORUM then .error .lowQuorum
    else .ok ⟨active, backup, st.reasons⟩

/-- Holds (`true`) exactly on the quorum-failure outcome. -/
def isLowQuorumError : Except ActivateError ActivateResult → Bool
  | .error .lowQuorum => true
  | _ => false

/-! ### R1 executor — src/ultrai/initial_round.py -/

/-- What the gateway did for one R1 slot: the ultimate result of the
primary's full retry loop, and of the backup's (consulted only when the
primary raised).  `.error msg` stands for the `InitialRoundError` the call
raised, with its message. -/
structure SlotOutcome where
  primary : Except (List Char) GatewaySuccess
  backup : Except (List Char) GatewaySuccess
deriving Repr

/-- Embeds `process_primary` for one slot (initial_round.py lines 275-334):
success yields an INITIAL record under the primary's id; on failure the
primary's id joins `failed_models`, the index-aligned `backups` entry (if
present and non-empty) is tried, a backup success is recorded under the
backup's id, and a double failure (or no backup) yields an `error: true`
record under the primary's id.  Returns the slot's single record and the
ids this slot appends to `failed_models`. -/
def process_primary (backups : List String) (idx : Nat) (model : String)
    (oc : SlotOutcome) : Response × List String :=
  match oc.primary with
  | .ok s => (⟨"INITIAL", model, s.text, s.ms, false⟩, [])
  | .error e1 =>
      let backupModel : Option String :=
        match backups.get? idx with
        | some b => if b != "" then some b else none
        | none => none
      match backupModel with
      | some b =>
          match oc.backup with
          | .ok s => (⟨"INITIAL", b, s.text, s.ms, false⟩, [model])
          | .error e2 =>
              (⟨"INITIAL", model,
                "ERROR: Primary failed (".data ++ e1 ++
                  "), Backup failed (".data ++ e2 ++ ")".data,
                0, true⟩, [model])
      | none =>
          (⟨"INITIAL", model, "ERROR: ".data ++ e1, 0, true⟩, [model])

/-- The R1 fan-out (`_execute_parallel_queries`, initial_round.py lines
231-339) over the slots, in slot order (see the header note on completion
order).  Returns `(responses, failed_models)`. -/
def r1Go (backups : List String) :
    Nat → List String → List SlotOutcome → List Response × List String
  | _, [], _ => ([], [])
  | _, _ :: _, [] => ([], [])
  | idx, m :: ms, oc :: ocs =>
      let r := process_primary backups idx m oc
      let rest := r1Go backups (idx + 1) ms ocs
      (r.1 :: rest.1, r.2 ++ rest.2)

/-- Runs `_execute_parallel_queries` with slot indexing started at 0. -/
def execute_parallel_queries (models backups : List String)
    (outcomes : List SlotOutcome) : List Response × List String :=
  r1Go backups 0 models outcomes

/-- The model id each slot's single record carries: the primary on primary
success, the consulted backup on a backup rescue, the primary again on a
double failure or when no backup is available. -/
def slotReportedModel (backups : List String) (idx : Nat) (model : String)
    (oc : SlotOutcome) : String :=
  match oc.primary with
  | .ok _ => model
  | .error _ =>
      match backups.get? idx with
      | some b =>
          if b != "" then (match oc.backup with | .ok _ => b | .error _ => model)
          else model
      | none => model

/-- Slot-indexed list of the reported model ids. -/
def reportedModels (backups : List String) :
    Nat → List String → List SlotOutcome → List String
  | _, [], _ => []
  | _, _ :: _, [] => []
  | idx, m :: ms, oc :: ocs =>
      slotReportedModel backups idx m oc :: reportedModels backups (idx + 1) ms ocs

/-- The primaries whose own call failed, in slot order — these are exactly
the appends to `failed_models`. -/
def primaryFailedIds : List String → List SlotOutcome → List String
  | [], _ => []
  | _ :: _, [] => []
  | m :: ms, oc :: ocs =>
      (match oc.primary with | .error _ => [m] | .ok _ => []) ++
        primaryFailedIds ms ocs

/-! ### R2 executor — src/ultrai/meta_round.py -/

/-- The failure modes of `execute_meta_round` relevant to the claims
(meta_round.py lines 81-116); each constructor names one `MetaRoundError`
raise site. -/
inductive MetaError where
  | missingQuery
  | insufficientPeers
  | invalidDrafts
deriving Repr, DecidableEq

/-- The R2 membership recomputation (meta_round.py lines 100-104): the
model ids of the R1 drafts that are not errors and whose `model` field is
truthy (non-empty). -/
def r2ActiveList (drafts : List Response) : List String :=
  drafts.filterMap (fun d => if !d.error && d.model != "" then some d.model else none)

/-- One META record per R2 member (`_execute_parallel_meta`, meta_round.py
lines 276-297): the oracle gives each model's ultimate call result; an
exception becomes an `error: true` record carrying that exact model id
(`ERROR: {type name}` abstracted as `"ERROR: " ++ msg`). -/
def buildMetaResponse (oracle : String → Except (List Char) GatewaySuccess)
    (m : String) : Response :=
  match oracle m with
  | .ok s => ⟨"META", m, s.text, s.ms, false⟩
  | .error e => ⟨"META", m, "ERROR: ".data ++ e, 0, true⟩

/-- Embeds `execute_meta_round` (meta_round.py lines 47-199) from the point its
input artifacts are loaded: empty-query guard, live membership, the
insufficient-peers guard (`len < 2`), the (dead) empty-drafts guard, then
one record per member. -/
def execute_meta_round (query : List Char) (drafts : List Response)
    (oracle : String → Except (List Char) GatewaySuccess) :
    Except MetaError (List Response) :=
  if query.isEmpty then .error .missingQuery
  else
    let activeList := r2ActiveList drafts
    if activeList.length < 2 then .error .insufficientPeers
    else if drafts.isEmpty then .error .invalidDrafts
    else .ok (activeList.map (buildMetaResponse oracle))

/-! ### Statistics — src/ultrai/statistics.py -/

/-- The `{count, avg_ms}` block for INITIAL and META. -/
structure PhaseListStats where
  count : Nat
  avg_ms : Nat
deriving Repr, DecidableEq

/-- The `{count, ms}` block for ULTRAI. -/
structure UltraiPhaseStats where
  count : Nat
  ms : Nat
deriving Repr, DecidableEq

/-- The content of `stats.json`. -/
structure StatsContent where
  INITIAL : PhaseListStats
  META : PhaseListStats
  ULTRAI : UltraiPhaseStats
deriving Repr, DecidableEq

/-- Embeds `_collect_initial_stats` / `_collect_meta_stats` (statistics.py lines
37-66): `none` models a missing or unreadable artifact, which leaves the
`{count: 0, avg_ms: 0}` default.  `avg_ms = sum // len` over the `ms` of
non-error entries (`Nat` division is Python's floor division here). -/
def collectListStats (items : Option (List Response)) : PhaseListStats :=
  match items with
  | none => ⟨0, 0⟩
  | some items =>
      let times := (items.filter (fun i => !i.error)).map (·.ms)
      ⟨items.length, if times.isEmpty then 0 else times.sum / times.length⟩

/-- Embeds `_collect_ultrai_stats` (statistics.py lines 69-81). -/
def collectUltraiStats (item : Option Response) : UltraiPhaseStats :=
  match item with
  | none => ⟨0, 0⟩
  | some item => ⟨1, item.ms⟩

/-- Embeds `generate_statistics` (statistics.py lines 17-34) over the three
optional artifacts of the run directory. -/
def generate_statistics (initial meta : Option (List Response))
    (ultrai : Option Response) : StatsContent :=
  ⟨collectListStats initial, collectListStats meta, collectUltraiStats ultrai⟩

/-- Python call binding, keyword part: a call raises `TypeError` unless
every keyword argument names a parameter that positional arguments have
not already filled.  `params` is the def's parameter-name list,
`numPositional` the count of positional arguments at the call site. -/
def pyKwargsAccepted (params : List String) (numPositional : Nat)
    (kwargs : List String) : Bool :=
  kwargs.all (fun k => (params.drop numPositional).contains k)

/-- The parameter list of `def generate_statistics(run_id: str)`
(statistics.py line 17). -/
def generate_statistics_params : List String := ["run_id"]

/-- Whether the orchestrator's invocation
`generate_statistics(run_id, total_time_ms=total_time_ms)` (api.py line
486) binds against that signature. -/
def orchestrator_stats_call_ok : Bool :=
  pyKwargsAccepted generate_statistics_params 1 ["total_time_ms"]

/-! ### Run-id sanitization and path resolution — src/ultrai/api.py -/

/-- The character class of the regex `^[a-zA-Z0-9_-]+$`
(api.py line 163); the ranges are the ASCII ones of the regex. -/
def runIdCharOk (c : Char) : Bool :=
  decide ((97 ≤ c.toNat ∧ c.toNat ≤ 122) ∨ (65 ≤ c.toNat ∧ c.toNat ≤ 90) ∨
    (48 ≤ c.toNat ∧ c.toNat ≤ 57) ∨ c = '_' ∨ c = '-')

/-- The keep-predicate of the final filter
`c.isalnum() or c in '_-'` (api.py line 181).  Python's `str.isalnum` is
Unicode-wide; on every character the regex admits it coincides with
`Char.isAlphanum` (proved below in `runIdCharOk_keep`). -/
def pyKeepChar (c : Char) : Bool :=
  c.isAlphanum || c == '_' || c == '-'

/-- Check `'..' in run_id` (api.py line 173). -/
def hasDotDot : List Char → Bool
  | [] => false
  | [_] => false
  | a :: b :: rest => (a == '.' && b == '.') || hasDotDot (b :: rest)

/-- The part of the run id that `re.match(r'^[a-zA-Z0-9_-]+$', s)` must
cover with the character class: Python's `$` (without `re.MULTILINE`)
matches at the end of the string or just before one newline at the very
end, so a single trailing `'\n'` is outside the matched core. -/
def runIdCore (s : List Char) : List Char :=
  if s.getLast? = some '\n' then s.dropLast else s

/-- Embeds `_sanitize_run_id` (api.py lines 148-181): the regex accepts the
string when its core — the string minus the single trailing newline that
`$` tolerates — is non-empty and lies in the class; `..`, `/` and `\` are
then re-checked on the whole string, and the final filter keeps only
alphanumerics, `_` and `-` (stripping the tolerated newline, so
`_sanitize_run_id("abc\n")` returns `"abc"` rather than raising). -/
def sanitize_run_id (s : List Char) : Option (List Char) :=
  if !(runIdCore s).isEmpty && (runIdCore s).all runIdCharOk then
    if hasDotDot s || s.contains '/' || s.contains '\\' then none
    else some (s.filter pyKeepChar)
  else none

/-- One step of POSIX path resolution over components: `.` is dropped,
`..` pops, anything else is pushed.  A resolved absolute path is its
component list. -/
def resolveStep (acc : List (List Char)) (comp : List Char) : List (List Char) :=
  if comp = ".".data then acc
  else if comp = "..".data then acc.dropLast
  else acc ++ [comp]

/-- Models `base.joinpath(...).resolve()` for an already-resolved `base`. -/
def resolveJoin (base : List (List Char)) (comps : List (List Char)) :
    List (List Char) :=
  comps.foldl resolveStep base

/-- Models `path.relative_to(base)`: it succeeds iff `base` is a dot-free component
prefix of `path`. -/
def startsWithBase (base p : List (List Char)) : Bool :=
  p.take base.length == base

/-- Embeds `_build_runs_dir` (api.py lines 193-232): sanitize, join one component
under the trusted resolved base, re-resolve, and reject unless the result
is still under the base. -/
def build_runs_dir (base : List (List Char)) (runId : List Char) :
    Option (List (List Char)) :=
  match sanitize_run_id runId with
  | none => none
  | some clean =>
      let dir := resolveJoin base [clean]
      if startsWithBase base dir then some dir else none

/-! ### Spec-side descriptions and concrete scenario inputs -/

/-- The base-timeout table of the specification (`< 1000 → 60 s`,
`< 3000 → 90 s`, `< 5000 → 120 s`, `≥ 5000 → 180 s`), written from the
spec's words for comparison with the source's factor chain. -/
def timeout_bucket_base (l : Nat) : ℚ :=
  if l < 1000 then 60 else if l < 3000 then 90 else if l < 5000 then 120 else 180

/-- The shapes a recorded `reasons` value can take, with the source's
literal no-replacement string. -/
def reasonShape (v : String) : Prop :=
  v = "PRIMARY_READY" ∨ (∃ id, v = "REPLACED_FALLBACK:" ++ id) ∨
    (∃ id, v = "REPLACED_ALT:" ++ id) ∨ v = "NOT READY_NO_REPLACEMENT"

/-- A READY list for the SPEEDY cocktail in which only the first primary
(`openai/gpt-4o-mini`) is unavailable: its aligned fallback replaces it at
activation. -/
def speedyReadyNoMini : List String :=
  ["anthropic/claude-3-haiku", "x-ai/grok-3-mini",
   "google/gemini-2.0-flash-exp:free", "qwen/qwen-2.5-72b-instruct",
   "meta-llama/llama-3.3-70b-instruct"]

/-- The activation result `prepare_active_llms .SPEEDY speedyReadyNoMini`
computes (checked by `rfl` below): the fallback of slot 0 fills slot 0,
and `backupList` keeps only the two unconsumed fallbacks, shifting their
indices down by one. -/
def speedyResNoMini : ActivateResult :=
  ⟨["google/gemini-2.0-flash-exp:free", "anthropic/claude-3-haiku",
    "x-ai/grok-3-mini"],
   ["qwen/qwen-2.5-72b-instruct", "meta-llama/llama-3.3-70b-instruct"],
   [("openai/gpt-4o-mini", "REPLACED_FALLBACK:google/gemini-2.0-flash-exp:free"),
    ("anthropic/claude-3-haiku", "PRIMARY_READY"),
    ("x-ai/grok-3-mini", "PRIMARY_READY")]⟩

/-- A two-slot R1 outcome in which slot 0's primary call raises and its
backup succeeds, while slot 1's primary succeeds. -/
def twoSlotOutcomes : List SlotOutcome :=
  [⟨.error "boom".data, .ok ⟨"t".data, 5⟩⟩,
   ⟨.ok ⟨"u".data, 7⟩, .ok ⟨[], 0⟩⟩]

/-- A READY list containing the whole LUXE cocktail. -/
def luxeAllReady : List String :=
  PRIMARY_MODELS .LUXE ++ FALLBACK_MODELS .LUXE

/-- The activation result for LUXE when everything is READY (checked by
`rfl` below): the primaries fill their own slots and every fallback stays
in `backupList`, index-aligned. -/
def luxeResAllReady : ActivateResult :=
  ⟨PRIMARY_MODELS .LUXE, FALLBACK_MODELS .LUXE,
   [("openai/gpt-4o", "PRIMARY_READY"),
    ("anthropic/claude-sonnet-4.5", "PRIMARY_READY"),
    ("google/gemini-2.0-flash-exp:free", "PRIMARY_READY")]⟩

/-! ## Theorems -/

/-- The clamp in `calculate_synthesis_timeout_len` never bites: the value
is the spec's bucket base, times `6/5` for more than 3 drafts. -/
lemma cst_closed_form (l k : Nat) :
    calculate_synthesis_timeout_len l k =
      if 4 ≤ k then timeout_bucket_base l * (6/5) else timeout_bucket_base l := by
  simp only [calculate_synthesis_timeout_len, length_factor_base, timeout_bucket_base]
  split_ifs <;> first | omega | norm_num

lemma bucket_base_mem (l : Nat) :
    timeout_bucket_base l = 60 ∨ timeout_bucket_base l = 90 ∨
      timeout_bucket_base l = 120 ∨ timeout_bucket_base l = 180 := by
  simp only [timeout_bucket_base]
  split_ifs <;> norm_num

lemma bucket_base_mono {l₁ l₂ : Nat} (h : l₁ ≤ l₂) :
    timeout_bucket_base l₁ ≤ timeout_bucket_base l₂ := by
  simp only [timeout_bucket_base]
  split_ifs <;> first | omega | norm_num

/-- C8.  `calculate_synthesis_timeout` maps context length to a base of
60 s below 1000 characters, 90 s below 3000, 120 s below 5000 and 180 s at
or above 5000, multiplies by 1.2 (= 6/5) exactly when the draft count is 4
or more, stays inside [60, 300], is monotone non-decreasing in context
length, and for fixed context the value at draft count ≥ 4 is at least the
value at draft count < 4. -/
theorem synthesis_timeout_policy :
    (∀ l k, k < 4 → calculate_synthesis_timeout_len l k = timeout_bucket_base l) ∧
    (∀ l k, 4 ≤ k →
      calculate_synthesis_timeout_len l k = timeout_bucket_base l * (6/5)) ∧
    (∀ l k, 60 ≤ calculate_synthesis_timeout_len l k ∧
      calculate_synthesis_timeout_len l k ≤ 300) ∧
    (∀ k l₁ l₂, l₁ ≤ l₂ →
      calculate_synthesis_timeout_len l₁ k ≤ calculate_synthesis_timeout_len l₂ k) ∧
    (∀ l k₁ k₂, k₁ < 4 → 4 ≤ k₂ →
      calculate_synthesis_timeout_len l k₁ ≤ calculate_synthesis_timeout_len l k₂) := by
  refine ⟨?_, ?_, ?_, ?_, ?_⟩
  · intro l k hk
    rw [cst_closed_form, if_neg (by omega)]
  · intro l k hk
    rw [cst_closed_form, if_pos hk]
  · intro l k
    rw [cst_closed_form]
    rcases bucket_base_mem l with h | h | h | h <;> rw [h] <;> split_ifs <;> norm_num
  · intro k l₁ l₂ h
    rw [cst_closed_form, cst_closed_form]
    have hb := bucket_base_mono h
    split_ifs
    · exact mul_le_mul_of_nonneg_right hb (by norm_num)
    · exact hb
  · intro l k₁ k₂ h₁ h₂
    rw [cst_closed_form, if_neg (by omega), cst_closed_form, if_pos h₂]
    have h60 : (60 : ℚ) ≤ timeout_bucket_base l := by
      rcases bucket_base_mem l with h | h | h | h <;> rw [h] <;> norm_num
    nlinarith

/-- C8 witness: the policy at concrete inputs — 500 chars is no slower
than 2000 chars for 2 drafts, and 2000 chars with 5 drafts is no faster
than with 2 drafts. -/
theorem synthesis_timeout_policy_witness :
    calculate_synthesis_timeout_len 500 2 ≤ calculate_synthesis_timeout_len 2000 2 ∧
    calculate_synthesis_timeout_len 2000 2 ≤ calculate_synthesis_timeout_len 2000 5 :=
  ⟨synthesis_timeout_policy.2.2.2.1 2 500 2000 (by norm_num),
   synthesis_timeout_policy.2.2.2.2 2000 2 5 (by norm_num) (by norm_num)⟩

lemma timeout_prelim_ge_180 (n : Nat) : timeout_prelim n ≥ 180 := by
  have h : timeout_prelim n = calculate_synthesis_timeout_len 10000 n := by
    rw [timeout_prelim, calculate_synthesis_timeout, List.length_replicate]
  rw [h, cst_closed_form]
  have hb : timeout_bucket_base 10000 = 180 := by norm_num [timeout_bucket_base]
  rw [hb]
  split_ifs <;> norm_num

/-- C2 counterexample: for the claimed scenario — 4 META drafts, 4500
characters of concatenated context — the status fields are
`timeout = 144` but `max_chars_per_draft = 2000`, not the claimed 1200:
the preliminary timeout is computed on the fixed worst-case context
`"x" * 10000`, which always lands in the ≥ 180 s bucket. -/
theorem r3_truncation_cap_counterexample :
    max_chars_per_draft 4 = 2000 ∧ max_chars_per_draft 4 ≠ 1200 ∧
    calculate_synthesis_timeout_len 4500 4 = 144 ∧ timeout_prelim 4 = 216 := by
  have hp : timeout_prelim 4 = 216 := by
    rw [timeout_prelim, calculate_synthesis_timeout, List.length_replicate]
    norm_num [calculate_synthesis_timeout_len, length_factor_base]
  refine ⟨?_, ?_, ?_, hp⟩
  · simp only [max_chars_per_draft, hp]
    norm_num
  · simp only [max_chars_per_draft, hp]
    norm_num
  · norm_num [calculate_synthesis_timeout_len, length_factor_base]

/-- C2 amended: the per-draft cap is selected from the bucket of the
preliminary timeout (180 s → 2000, 120 s → 1200, 90 s → 800, else 500),
but the preliminary timeout is computed on a fixed 10000-character
worst-case context and is therefore always in the 180 s bucket: the cap is
2000 for every draft count.  Each draft is truncated to the prefix of the
cap, and for a 4500-character context with 4 drafts the final reported
timeout is 144. -/
theorem r3_truncation_cap_constant :
    (∀ n, max_chars_per_draft n = 2000) ∧
    (∀ cap t, truncateDraft cap t = t.take (min cap t.length)) ∧
    (∀ n, timeout_prelim n = if 4 ≤ n then 216 else 180) ∧
    calculate_synthesis_timeout_len 4500 4 = 144 := by
  refine ⟨?_, ?_, ?_, ?_⟩
  · intro n
    rw [max_chars_per_draft, if_pos (timeout_prelim_ge_180 n)]
  · intro cap t
    rw [truncateDraft]
    split_ifs with h
    · rw [Nat.min_eq_left (by omega)]
    · rw [Nat.min_eq_right (by omega), List.take_length]
  · intro n
    have h : timeout_prelim n = calculate_synthesis_timeout_len 10000 n := by
      rw [timeout_prelim, calculate_synthesis_timeout, List.length_replicate]
    rw [h, cst_closed_form]
    have hb : timeout_bucket_base 10000 = 180 := by norm_num [timeout_bucket_base]
    rw [hb]
    split_ifs <;> norm_num
  · norm_num [calculate_synthesis_timeout_len, length_factor_base]

/-- C1: the statistics component itself is total and yields zero counts for
every missing artifact — but the orchestrator's invocation
`generate_statistics(run_id, total_time_ms=...)` (api.py line 486) does not
bind against the signature `generate_statistics(run_id)` (statistics.py
line 17): Python raises `TypeError` there, so every run that reaches the
statistics step fails at it. -/
theorem statistics_call_mismatch :
    orchestrator_stats_call_ok = false ∧
    generate_statistics none none none =
      ⟨⟨0, 0⟩, ⟨0, 0⟩, ⟨0, 0⟩⟩ ∧
    (∀ m u, (generate_statistics none m u).INITIAL = ⟨0, 0⟩) ∧
    (∀ i u, (generate_statistics i none u).META = ⟨0, 0⟩) ∧
    (∀ i m, (generate_statistics i m none).ULTRAI = ⟨0, 0⟩) :=
  ⟨rfl, rfl, fun _ _ => rfl, fun _ _ => rfl, fun _ _ => rfl⟩

/-- C10: the quorum-failure branch of `prepare_active_llms` is unreachable:
whenever the unsatisfiable-cocktail check passes, the active list
(`resolved[:3]`) has exactly 3 ≥ QUORUM = 2 elements, so no input ever
produces the quorum error. -/
theorem quorum_branch_unreachable :
    ∀ c ready, isLowQuorumError (prepare_active_llms c ready) = false ∧
      ((cocktailResolve c ready).resolved.length < 3 ∨
        ((cocktailResolve c ready).resolved.take 3).length = 3) := by
  intro c ready
  by_cases h : (cocktailResolve c ready).resolved.length < 3
  · refine ⟨?_, Or.inl h⟩
    simp [prepare_active_llms, isLowQuorumError, h]
  · have hlen : ((cocktailResolve c ready).resolved.take 3).length = 3 := by
      rw [List.length_take]
      omega
    refine ⟨?_, Or.inr hlen⟩
    simp only [prepare_active_llms, isLowQuorumError, if_neg h]
    rw [if_neg (by rw [hlen]; simp [QUORUM])]

/-- Every character the run-id regex admits is kept by the final
`c.isalnum() or c in '_-'` filter. -/
lemma runIdCharOk_keep (c : Char) (h : runIdCharOk c = true) :
    pyKeepChar c = true := by
  simp only [runIdCharOk, decide_eq_true_eq] at h
  simp only [pyKeepChar, Char.isAlphanum, Char.isAlpha, Char.isDigit,
    Char.isUpper, Char.isLower, Bool.or_eq_true, beq_iff_eq]
  rcases h with h | h | h | h | h
  · have h1 : (97 : UInt32) ≤ c.val := by
      change (97 : Nat) ≤ c.val.val.val
      simpa using h.1
    have h2 : c.val ≤ (122 : UInt32) := by
      change c.val.val.val ≤ (122 : Nat)
      simpa using h.2
    simp [h1, h2, ge_iff_le]
  · have h1 : (65 : UInt32) ≤ c.val := by
      change (65 : Nat) ≤ c.val.val.val
      simpa using h.1
    have h2 : c.val ≤ (90 : UInt32) := by
      change c.val.val.val ≤ (90 : Nat)
      simpa using h.2
    simp [h1, h2, ge_iff_le]
  · have h1 : (48 : UInt32) ≤ c.val := by
      change (48 : Nat) ≤ c.val.val.val
      simpa using h.1
    have h2 : c.val ≤ (57 : UInt32) := by
      change c.val.val.val ≤ (57 : Nat)
      simpa using h.2
    simp [h1, h2, ge_iff_le]
  · simp [h]
  · simp [h]

/-- On an accepted run id the final filter is the identity. -/
lemma sanitize_filter_id {s : List Char} (h : s.all runIdCharOk = true) :
    s.filter pyKeepChar = s :=
  List.filter_eq_self.mpr fun c hc => runIdCharOk_keep c (List.all_eq_true.mp h c hc)

/-- Decomposition of a string whose last character is known. -/
lemma eq_dropLast_append_of_getLast (s : List Char) (c : Char)
    (h : s.getLast? = some c) : s = s.dropLast ++ [c] := by
  have hne : s ≠ [] := by
    intro he
    rw [he] at h
    cases h
  have h2 := List.getLast?_eq_getLast s hne
  rw [h] at h2
  have h3 : s.getLast hne = c := (Option.some_inj.mp h2).symm
  rw [← h3]
  exact (List.dropLast_append_getLast hne).symm

/-- A string with no dot has no `..` substring. -/
lemma hasDotDot_eq_false : ∀ {s : List Char}, ('.' : Char) ∉ s →
    hasDotDot s = false := by
  intro s
  induction s with
  | nil => intro h; rfl
  | cons a rest ih =>
      intro h
      cases rest with
      | nil => rfl
      | cons b r2 =>
          show ((a == '.' && b == '.') || hasDotDot (b :: r2)) = false
          have ha : (a == '.') = false := by
            cases hb : a == '.' with
            | false => rfl
            | true =>
                have hae : a = '.' := by simpa using hb
                refine absurd ?_ h
                rw [← hae]
                exact List.mem_cons_self _ _
          rw [ha]
          simp only [Bool.false_and, Bool.false_or]
          exact ih (fun hm => h (List.mem_cons_of_mem _ hm))

/-- Every character of the run id is in the regex-matched core or is the
tolerated trailing newline. -/
lemma mem_core_or_newline {s : List Char} {c : Char} (h : c ∈ s) :
    c ∈ runIdCore s ∨ c = '\n' := by
  rw [runIdCore]
  split_ifs with hl
  · have := List.mem_append.mp
      (show c ∈ s.dropLast ++ ['\n'] by
        rw [← eq_dropLast_append_of_getLast s '\n' hl]
        exact h)
    rcases this with h2 | h2
    · exact Or.inl h2
    · simp only [List.mem_singleton] at h2
      exact Or.inr h2
  · exact Or.inl h

/-- On a regex-accepted run id the final filter returns the core: it keeps
every class character and strips the tolerated trailing newline. -/
lemma core_filter (s : List Char)
    (hall : (runIdCore s).all runIdCharOk = true) :
    s.filter pyKeepChar = runIdCore s := by
  by_cases hl : s.getLast? = some '\n'
  · have hcore : runIdCore s = s.dropLast := by
      rw [runIdCore, if_pos hl]
    rw [hcore] at hall ⊢
    have hnl : List.filter pyKeepChar ['\n'] = [] := by decide
    calc s.filter pyKeepChar
        = (s.dropLast ++ ['\n']).filter pyKeepChar := by
          rw [← eq_dropLast_append_of_getLast s '\n' hl]
      _ = s.dropLast.filter pyKeepChar ++ List.filter pyKeepChar ['\n'] :=
          List.filter_append ..
      _ = s.dropLast ++ [] := by rw [sanitize_filter_id hall, hnl]
      _ = s.dropLast := List.append_nil _
  · have hcore : runIdCore s = s := by
      rw [runIdCore, if_neg hl]
    rw [hcore] at hall ⊢
    exact sanitize_filter_id hall

/-- When the regex accepts (non-empty core, all characters in the class),
`_build_runs_dir` resolves to the strict descendant `base/<core>`. -/
lemma build_of_core_ok (base : List (List Char)) (s : List Char)
    (hne : (runIdCore s).isEmpty = false)
    (hall : (runIdCore s).all runIdCharOk = true) :
    build_runs_dir base s = some (base ++ [runIdCore s]) := by
  have hnoc : ∀ c : Char, runIdCharOk c = false → c ≠ '\n' → c ∉ s := by
    intro c hbad hcn hmem
    rcases mem_core_or_newline hmem with h | h
    · exact absurd (List.all_eq_true.mp hall c h) (by simp [hbad])
    · exact hcn h
  have hdot : ('.' : Char) ∉ s := hnoc '.' (by decide) (by decide)
  have hslash : ('/' : Char) ∉ s := hnoc '/' (by decide) (by decide)
  have hback : ('\\' : Char) ∉ s := hnoc '\\' (by decide) (by decide)
  have hcond1 : (!(runIdCore s).isEmpty && (runIdCore s).all runIdCharOk) = true := by
    rw [hne, hall]
    rfl
  have hdd : hasDotDot s = false := hasDotDot_eq_false hdot
  have hc2 : s.contains '/' = false := by
    cases hc : s.contains '/' with
    | false => rfl
    | true => exact absurd (List.elem_iff.mp hc) hslash
  have hc3 : s.contains '\\' = false := by
    cases hc : s.contains '\\' with
    | false => rfl
    | true => exact absurd (List.elem_iff.mp hc) hback
  have hsan : sanitize_run_id s = some (runIdCore s) := by
    rw [sanitize_run_id, if_pos hcond1,
      if_neg (by rw [hdd, hc2, hc3]; simp), core_filter s hall]
  have hdotc : ('.' : Char) ∉ runIdCore s := fun hm =>
    absurd (List.all_eq_true.mp hall _ hm) (by decide)
  have hres : resolveJoin base [runIdCore s] = base ++ [runIdCore s] := by
    simp only [resolveJoin, List.foldl, resolveStep]
    rw [if_neg, if_neg]
    · intro he
      exact hdotc (by rw [he]; simp)
    · intro he
      exact hdotc (by rw [he]; simp)
  unfold build_runs_dir
  rw [hsan]
  dsimp only
  rw [hres]
  rw [if_pos (show startsWithBase base (base ++ [runIdCore s]) = true by
    simp [startsWithBase, List.take_left])]

/-- C9 amended: path safety of the run-id handling.  For every base and
every input string, `_build_runs_dir` either rejects or returns the strict
descendant `base/<core>` of the trusted base, where the core consists only
of `[A-Za-z0-9_-]` characters; any id containing `.`, `/` or `\` is
rejected; any id with a character outside the class **in the regex-matched
core** is rejected — but a single trailing newline is tolerated (Python's
`$` matches before it) and stripped by the final filter rather than
rejected, so not every id with a character outside the class is refused.
No input string can cause a read or write outside the base. -/
theorem run_id_path_safety :
    ∀ (base : List (List Char)) (s : List Char),
      (∀ d, build_runs_dir base s = some d →
        ∃ comp, d = base ++ [comp] ∧ comp ≠ [] ∧ comp.all runIdCharOk = true) ∧
      ((∃ c ∈ runIdCore s, runIdCharOk c = false) →
        build_runs_dir base s = none) ∧
      (('.' ∈ s ∨ '/' ∈ s ∨ '\\' ∈ s) → build_runs_dir base s = none) ∧
      (s.getLast? = some '\n' → s.dropLast ≠ [] →
        s.dropLast.all runIdCharOk = true →
        build_runs_dir base s = some (base ++ [s.dropLast])) := by
  intro base s
  have reject : (∃ c ∈ runIdCore s, runIdCharOk c = false) →
      build_runs_dir base s = none := by
    rintro ⟨c, hc, hbad⟩
    have hall : (runIdCore s).all runIdCharOk = false := by
      cases hb : (runIdCore s).all runIdCharOk with
      | false => rfl
      | true => exact absurd (List.all_eq_true.mp hb c hc) (by simp [hbad])
    have hsan : sanitize_run_id s = none := by
      rw [sanitize_run_id, if_neg (by rw [hall]; simp)]
    unfold build_runs_dir
    rw [hsan]
  refine ⟨?_, reject, ?_, ?_⟩
  · intro d hd
    by_cases hacc : ((runIdCore s).isEmpty = false ∧
        (runIdCore s).all runIdCharOk = true)
    · have hb := build_of_core_ok base s hacc.1 hacc.2
      rw [hb] at hd
      refine ⟨runIdCore s, (Option.some_inj.mp hd).symm, ?_, hacc.2⟩
      intro he
      have hcontra := hacc.1
      rw [he] at hcontra
      simp at hcontra
    · have hsan : sanitize_run_id s = none := by
        rw [sanitize_run_id, if_neg]
        intro hcond
        rw [Bool.and_eq_true, Bool.not_eq_true'] at hcond
        exact hacc ⟨hcond.1, hcond.2⟩
      unfold build_runs_dir at hd
      rw [hsan] at hd
      exact Option.noConfusion hd
  · intro h
    refine reject ?_
    have hpick : ∀ c : Char, c ∈ s → c ≠ '\n' → runIdCharOk c = false →
        ∃ x ∈ runIdCore s, runIdCharOk x = false := by
      intro c hc hcn hbad
      rcases mem_core_or_newline hc with hh | hh
      · exact ⟨c, hh, hbad⟩
      · exact absurd hh hcn
    rcases h with h | h | h
    · exact hpick '.' h (by decide) (by decide)
    · exact hpick '/' h (by decide) (by decide)
    · exact hpick '\\' h (by decide) (by decide)
  · intro hl hne hall
    have hcore : runIdCore s = s.dropLast := by
      rw [runIdCore, if_pos hl]
    have hb := build_of_core_ok base s ?_ ?_
    · rw [hcore] at hb
      exact hb
    · rw [hcore]
      cases hdd : s.dropLast.isEmpty with
      | false => rfl
      | true => exact absurd (List.isEmpty_iff.mp hdd) hne
    · rw [hcore]
      exact hall

/-- C9 counterexample: the id `"abc\n"` contains the newline, a character
outside `[A-Za-z0-9_-]`, yet the API does not reject it: Python's `$`
matches before a single trailing newline, so `_sanitize_run_id` strips it
and the request resolves to `runs/abc` instead of returning 400 — the
claim's rejection conjunct fails. -/
theorem run_id_newline_counterexample :
    ('\n' ∈ "abc\n".data) ∧ runIdCharOk '\n' = false ∧
    build_runs_dir ["runs".data] "abc\n".data =
      some ["runs".data, "abc".data] ∧
    build_runs_dir ["runs".data] "abc\n".data ≠ none := by
  refine ⟨by decide, by decide, by decide, by decide⟩

/-- C9 witness: the traversal string `../etc` is rejected, and the
trailing-newline id `abc\n` is accepted and resolved to the strict
descendant `runs/abc` of the base. -/
theorem run_id_path_safety_witness :
    build_runs_dir ["runs".data] "../etc".data = none ∧
    build_runs_dir ["runs".data] "abc\n".data =
      some (["runs".data] ++ ["abc\n".data.dropLast]) :=
  ⟨(run_id_path_safety ["runs".data] "../etc".data).2.2.1
      (Or.inl (by decide)),
   (run_id_path_safety ["runs".data] "abc\n".data).2.2.2
      (by decide) (by decide) (by decide)⟩

/-- Equation: priority step 1 — the aligned PRIMARY is READY and not yet
chosen, so it fills the slot. -/
lemma slotStep_primary (ready fallbacks pool : List String) (idx : Nat)
    (p : String) (st : SlotResolution)
    (h1 : (ready.contains p && !st.resolved.contains p) = true) :
    slotStep ready fallbacks pool idx p st =
      ⟨st.resolved ++ [p], st.reasons ++ [(p, "PRIMARY_READY")]⟩ := by
  unfold slotStep
  rw [if_pos h1]

/-- Equation: priority step 2 — the PRIMARY is unusable but the aligned
FALLBACK is READY and not yet chosen. -/
lemma slotStep_fallback (ready fallbacks pool : List String) (idx : Nat)
    (p fb : String) (st : SlotResolution)
    (h1 : (ready.contains p && !st.resolved.contains p) = false)
    (hfb : fallbacks.get? idx = some fb)
    (h2 : (fb != "" && ready.contains fb && !st.resolved.contains fb) = true) :
    slotStep ready fallbacks pool idx p st =
      ⟨st.resolved ++ [fb], st.reasons ++ [(p, "REPLACED_FALLBACK:" ++ fb)]⟩ := by
  have hne : ((ready.contains p && !st.resolved.contains p) = true) → False := by
    intro hc
    rw [hc] at h1
    exact Bool.noConfusion h1
  unfold slotStep
  rw [if_neg hne, hfb]
  dsimp only
  rw [if_pos h2]

/-- Equation: when neither the PRIMARY nor the aligned FALLBACK is usable,
the step falls through to the alternate choice. -/
lemma slotStep_alt_path (ready fallbacks pool : List String) (idx : Nat)
    (p : String) (st : SlotResolution)
    (h1 : (ready.contains p && !st.resolved.contains p) = false)
    (h2 : ∀ fb, fallbacks.get? idx = some fb →
      (fb != "" && ready.contains fb && !st.resolved.contains fb) = false) :
    slotStep ready fallbacks pool idx p st = altChoice pool p st := by
  have hne : ((ready.contains p && !st.resolved.contains p) = true) → False := by
    intro hc
    rw [hc] at h1
    exact Bool.noConfusion h1
  unfold slotStep
  rw [if_neg hne]
  cases hfb : fallbacks.get? idx with
  | none => rfl
  | some fb =>
      dsimp only
      refine if_neg ?_
      intro hc
      have h2f := h2 fb hfb
      rw [hc] at h2f
      exact Bool.noConfusion h2f

/-- Equation: priority step 3 — the first not-yet-chosen member of the
READY pool fills the slot. -/
lemma altChoice_found (pool : List String) (p a : String) (st : SlotResolution)
    (hfind : pool.find? (fun m => !st.resolved.contains m) = some a) :
    altChoice pool p st =
      ⟨st.resolved ++ [a], st.reasons ++ [(p, "REPLACED_ALT:" ++ a)]⟩ := by
  unfold altChoice
  rw [hfind]

/-- Equation: priority step 4 — no replacement exists; the slot stays
unfilled and the source's literal reason string is recorded. -/
lemma altChoice_none (pool : List String) (p : String) (st : SlotResolution)
    (hfind : pool.find? (fun m => !st.resolved.contains m) = none) :
    altChoice pool p st =
      ⟨st.resolved, st.reasons ++ [(p, "NOT READY_NO_REPLACEMENT")]⟩ := by
  unfold altChoice
  rw [hfind]

/-- Every slot step appends exactly one `reasons` entry, keyed by the
slot's original primary. -/
lemma slotStep_reasons_fst (ready fallbacks pool : List String) (idx : Nat)
    (p : String) (st : SlotResolution) :
    ((slotStep ready fallbacks pool idx p st).reasons).map Prod.fst =
      st.reasons.map Prod.fst ++ [p] := by
  by_cases h1 : (ready.contains p && !st.resolved.contains p) = true
  · rw [slotStep_primary ready fallbacks pool idx p st h1]
    simp
  · have h1f : (ready.contains p && !st.resolved.contains p) = false :=
      Bool.eq_false_iff.mpr h1
    by_cases hu : ∃ fb, fallbacks.get? idx = some fb ∧
        (fb != "" && ready.contains fb && !st.resolved.contains fb) = true
    · obtain ⟨fb, hfb, h2⟩ := hu
      rw [slotStep_fallback ready fallbacks pool idx p fb st h1f hfb h2]
      simp
    · rw [slotStep_alt_path ready fallbacks pool idx p st h1f
        (fun fb hfb => Bool.eq_false_iff.mpr (fun hc => hu ⟨fb, hfb, hc⟩))]
      cases hfind : pool.find? (fun m => !st.resolved.contains m) with
      | some a =>
          rw [altChoice_found pool p a st hfind]
          simp
      | none =>
          rw [altChoice_none pool p st hfind]
          simp

/-- Every slot step's new `reasons` value has one of the four recorded
shapes. -/
lemma slotStep_reasons_val (ready fallbacks pool : List String) (idx : Nat)
    (p : String) (st : SlotResolution) :
    ∀ kv ∈ (slotStep ready fallbacks pool idx p st).reasons,
      kv ∈ st.reasons ∨ reasonShape kv.2 := by
  intro kv hkv
  by_cases h1 : (ready.contains p && !st.resolved.contains p) = true
  · rw [slotStep_primary ready fallbacks pool idx p st h1] at hkv
    rcases List.mem_append.mp hkv with h | h
    · exact Or.inl h
    · simp only [List.mem_singleton] at h
      subst h
      exact Or.inr (Or.inl rfl)
  · have h1f : (ready.contains p && !st.resolved.contains p) = false :=
      Bool.eq_false_iff.mpr h1
    by_cases hu : ∃ fb, fallbacks.get? idx = some fb ∧
        (fb != "" && ready.contains fb && !st.resolved.contains fb) = true
    · obtain ⟨fb, hfb, h2⟩ := hu
      rw [slotStep_fallback ready fallbacks pool idx p fb st h1f hfb h2] at hkv
      rcases List.mem_append.mp hkv with h | h
      · exact Or.inl h
      · simp only [List.mem_singleton] at h
        subst h
        exact Or.inr (Or.inr (Or.inl ⟨fb, rfl⟩))
    · rw [slotStep_alt_path ready fallbacks pool idx p st h1f
        (fun fb hfb => Bool.eq_false_iff.mpr (fun hc => hu ⟨fb, hfb, hc⟩))] at hkv
      cases hfind : pool.find? (fun m => !st.resolved.contains m) with
      | some a =>
          rw [altChoice_found pool p a st hfind] at hkv
          rcases List.mem_append.mp hkv with h | h
          · exact Or.inl h
          · simp only [List.mem_singleton] at h
            subst h
            exact Or.inr (Or.inr (Or.inr (Or.inl ⟨a, rfl⟩)))
      | none =>
          rw [altChoice_none pool p st hfind] at hkv
          rcases List.mem_append.mp hkv with h | h
          · exact Or.inl h
          · simp only [List.mem_singleton] at h
            subst h
            exact Or.inr (Or.inr (Or.inr (Or.inr rfl)))

/-- A slot step either leaves `resolved` unchanged or appends a single
READY, not-yet-chosen model. -/
lemma slotStep_resolved (ready fallbacks pool : List String) (idx : Nat)
    (p : String) (st : SlotResolution)
    (hpool : ∀ m ∈ pool, ready.contains m = true) :
    (slotStep ready fallbacks pool idx p st).resolved = st.resolved ∨
      ∃ m, (slotStep ready fallbacks pool idx p st).resolved = st.resolved ++ [m] ∧
        ready.contains m = true ∧ st.resolved.contains m = false := by
  by_cases h1 : (ready.contains p && !st.resolved.contains p) = true
  · rw [slotStep_primary ready fallbacks pool idx p st h1]
    rw [Bool.and_eq_true, Bool.not_eq_true'] at h1
    exact Or.inr ⟨p, rfl, h1.1, h1.2⟩
  · have h1f : (ready.contains p && !st.resolved.contains p) = false :=
      Bool.eq_false_iff.mpr h1
    by_cases hu : ∃ fb, fallbacks.get? idx = some fb ∧
        (fb != "" && ready.contains fb && !st.resolved.contains fb) = true
    · obtain ⟨fb, hfb, h2⟩ := hu
      rw [slotStep_fallback ready fallbacks pool idx p fb st h1f hfb h2]
      rw [Bool.and_eq_true, Bool.and_eq_true, Bool.not_eq_true'] at h2
      exact Or.inr ⟨fb, rfl, h2.1.2, h2.2⟩
    · rw [slotStep_alt_path ready fallbacks pool idx p st h1f
        (fun fb hfb => Bool.eq_false_iff.mpr (fun hc => hu ⟨fb, hfb, hc⟩))]
      cases hfind : pool.find? (fun m => !st.resolved.contains m) with
      | some a =>
          rw [altChoice_found pool p a st hfind]
          refine Or.inr ⟨a, rfl, hpool a (List.mem_of_find?_eq_some hfind), ?_⟩
          have := List.find?_some hfind
          rwa [Bool.not_eq_true'] at this
      | none =>
          rw [altChoice_none pool p st hfind]
          exact Or.inl rfl

/-- The resolution loop's `reasons` keys are the primaries, in slot
order. -/
lemma resolveGo_reasons_fst (ready fallbacks pool : List String) :
    ∀ (prims : List String) (idx : Nat) (st : SlotResolution),
      ((resolveSlotsGo ready fallbacks pool prims idx st).reasons).map Prod.fst =
        st.reasons.map Prod.fst ++ prims := by
  intro prims
  induction prims with
  | nil => intro idx st; simp [resolveSlotsGo]
  | cons p rest ih =>
      intro idx st
      rw [resolveSlotsGo, ih, slotStep_reasons_fst]
      simp

/-- Every `reasons` value the loop records has one of the four shapes. -/
lemma resolveGo_reasons_val (ready fallbacks pool : List String) :
    ∀ (prims : List String) (idx : Nat) (st : SlotResolution),
      ∀ kv ∈ (resolveSlotsGo ready fallbacks pool prims idx st).reasons,
        kv ∈ st.reasons ∨ reasonShape kv.2 := by
  intro prims
  induction prims with
  | nil => intro idx st kv hkv; exact Or.inl hkv
  | cons p rest ih =>
      intro idx st kv hkv
      rw [resolveSlotsGo] at hkv
      rcases ih (idx + 1) _ kv hkv with h | h
      · exact slotStep_reasons_val ready fallbacks pool idx p st kv h
      · exact Or.inr h

/-- Everything the loop adds to `resolved` is READY. -/
lemma resolveGo_resolved_mem (ready fallbacks pool : List String)
    (hpool : ∀ m ∈ pool, ready.contains m = true) :
    ∀ (prims : List String) (idx : Nat) (st : SlotResolution),
      ∀ m ∈ (resolveSlotsGo ready fallbacks pool prims idx st).resolved,
        m ∈ st.resolved ∨ ready.contains m = true := by
  intro prims
  induction prims with
  | nil => intro idx st m hm; exact Or.inl hm
  | cons p rest ih =>
      intro idx st m hm
      rw [resolveSlotsGo] at hm
      rcases ih (idx + 1) _ m hm with h | h
      · rcases slotStep_resolved ready fallbacks pool idx p st hpool with
          heq | ⟨a, heq, ha, _⟩
        · rw [heq] at h
          exact Or.inl h
        · rw [heq] at h
          rcases List.mem_append.mp h with h | h
          · exact Or.inl h
          · simp only [List.mem_singleton] at h
            subst h
            exact Or.inr ha
      · exact Or.inr h

/-- Equation: `prepare_active_llms` written without intermediate `let`s. -/
lemma prepare_eq (c : Cocktail) (ready : List String) :
    prepare_active_llms c ready =
      if (cocktailResolve c ready).resolved.length < 3 then .error .unsatisfiable
      else if ((cocktailResolve c ready).resolved.take 3).length < QUORUM then
        .error .lowQuorum
      else .ok ⟨(cocktailResolve c ready).resolved.take 3,
        (FALLBACK_MODELS c).filter (fun m => ready.contains m &&
          !((cocktailResolve c ready).resolved.take 3).contains m),
        (cocktailResolve c ready).reasons⟩ := rfl

/-- C7 amended: the resolver fills each PRIMARY slot in the claimed
priority order (aligned PRIMARY, aligned FALLBACK, first unchosen READY
pool member, else unfilled), records exactly one `reasons` entry per
original PRIMARY slot whose value is `PRIMARY_READY`,
`REPLACED_FALLBACK:<id>`, `REPLACED_ALT:<id>` or the source's literal
`NOT READY_NO_REPLACEMENT` (space, not underscore, after NOT); a completed
activation has `|activeList| = 3` with every member drawn from the ready
list, and fewer than 3 filled slots fails activation. -/
theorem activation_resolution_policy :
    (∀ ready fallbacks pool idx p st,
      (ready.contains p && !st.resolved.contains p) = true →
        slotStep ready fallbacks pool idx p st =
          ⟨st.resolved ++ [p], st.reasons ++ [(p, "PRIMARY_READY")]⟩) ∧
    (∀ ready fallbacks pool idx p fb st,
      (ready.contains p && !st.resolved.contains p) = false →
      fallbacks.get? idx = some fb →
      (fb != "" && ready.contains fb && !st.resolved.contains fb) = true →
        slotStep ready fallbacks pool idx p st =
          ⟨st.resolved ++ [fb], st.reasons ++ [(p, "REPLACED_FALLBACK:" ++ fb)]⟩) ∧
    (∀ ready fallbacks pool idx p a st,
      (ready.contains p && !st.resolved.contains p) = false →
      (∀ fb, fallbacks.get? idx = some fb →
        (fb != "" && ready.contains fb && !st.resolved.contains fb) = false) →
      pool.find? (fun m => !st.resolved.contains m) = some a →
        slotStep ready fallbacks pool idx p st =
          ⟨st.resolved ++ [a], st.reasons ++ [(p, "REPLACED_ALT:" ++ a)]⟩) ∧
    (∀ ready fallbacks pool idx p st,
      (ready.contains p && !st.resolved.contains p) = false →
      (∀ fb, fallbacks.get? idx = some fb →
        (fb != "" && ready.contains fb && !st.resolved.contains fb) = false) →
      pool.find? (fun m => !st.resolved.contains m) = none →
        slotStep ready fallbacks pool idx p st =
          ⟨st.resolved, st.reasons ++ [(p, "NOT READY_NO_REPLACEMENT")]⟩) ∧
    (∀ c ready,
      ((cocktailResolve c ready).reasons).map Prod.fst = PRIMARY_MODELS c) ∧
    (∀ c ready, ∀ kv ∈ (cocktailResolve c ready).reasons, reasonShape kv.2) ∧
    (∀ c ready res, prepare_active_llms c ready = .ok res →
      res.activeList.length = 3 ∧ ∀ m ∈ res.activeList, m ∈ ready) ∧
    (∀ c ready, (cocktailResolve c ready).resolved.length < 3 →
      prepare_active_llms c ready = .error .unsatisfiable) := by
  refine ⟨slotStep_primary, slotStep_fallback, ?_, ?_, ?_, ?_, ?_, ?_⟩
  · intro ready fallbacks pool idx p a st h1 h2 hfind
    rw [slotStep_alt_path ready fallbacks pool idx p st h1 h2]
    exact altChoice_found pool p a st hfind
  · intro ready fallbacks pool idx p st h1 h2 hfind
    rw [slotStep_alt_path ready fallbacks pool idx p st h1 h2]
    exact altChoice_none pool p st hfind
  · intro c ready
    have := resolveGo_reasons_fst ready (FALLBACK_MODELS c)
      (((PRIMARY_MODELS c) ++ (FALLBACK_MODELS c)).filter ready.contains)
      (PRIMARY_MODELS c) 0 ⟨[], []⟩
    simpa [cocktailResolve] using this
  · intro c ready kv hkv
    have := resolveGo_reasons_val ready (FALLBACK_MODELS c)
      (((PRIMARY_MODELS c) ++ (FALLBACK_MODELS c)).filter ready.contains)
      (PRIMARY_MODELS c) 0 ⟨[], []⟩ kv
    rcases this (by simpa [cocktailResolve] using hkv) with h | h
    · exact absurd h (List.not_mem_nil kv)
    · exact h
  · intro c ready res h
    rw [prepare_eq] at h
    split_ifs at h with h3 hq
    have hres := (Except.ok.injEq _ _).mp h
    have hlen : res.activeList.length = 3 := by
      rw [← hres]
      rw [List.length_take]
      omega
    refine ⟨hlen, ?_⟩
    intro m hm
    have hact : res.activeList = (cocktailResolve c ready).resolved.take 3 := by
      rw [← hres]
    rw [hact] at hm
    have hmem : m ∈ (cocktailResolve c ready).resolved :=
      List.take_subset 3 _ hm
    have hpool : ∀ x ∈ ((PRIMARY_MODELS c) ++ (FALLBACK_MODELS c)).filter
        ready.contains, ready.contains x = true := by
      intro x hx
      exact (List.mem_filter.mp hx).2
    have := resolveGo_resolved_mem ready (FALLBACK_MODELS c)
      (((PRIMARY_MODELS c) ++ (FALLBACK_MODELS c)).filter ready.contains)
      hpool (PRIMARY_MODELS c) 0 ⟨[], []⟩ m
      (by simpa [cocktailResolve] using hmem)
    rcases this with h | h
    · exact absurd h (List.not_mem_nil m)
    · simpa using h
  · intro c ready h
    rw [prepare_eq, if_pos h]

/-- C7 witness: the first-priority case at a concrete instance — a READY
primary takes its own slot and records `PRIMARY_READY`. -/
theorem activation_resolution_policy_witness :
    slotStep ["a"] [] [] 0 "a" ⟨[], []⟩ = ⟨["a"], [("a", "PRIMARY_READY")]⟩ :=
  activation_resolution_policy.1 ["a"] [] [] 0 "a" ⟨[], []⟩ (by decide)

/-- C7 counterexample: on a SPEEDY run where only `anthropic/claude-3-haiku`
and `x-ai/grok-3-mini` are READY, the unfilled slot's recorded reason is
the literal `"NOT READY_NO_REPLACEMENT"`, which is not the claimed
`NOT_READY_NO_REPLACEMENT` and matches none of the claimed value forms. -/
theorem not_ready_reason_literal_counterexample :
    ((cocktailResolve .SPEEDY
        ["anthropic/claude-3-haiku", "x-ai/grok-3-mini"]).reasons).lookup
      "x-ai/grok-3-mini" = some "NOT READY_NO_REPLACEMENT" ∧
    "NOT READY_NO_REPLACEMENT" ≠ "NOT_READY_NO_REPLACEMENT" ∧
    "NOT READY_NO_REPLACEMENT".data.take 18 ≠ "REPLACED_FALLBACK:".data ∧
    "NOT READY_NO_REPLACEMENT".data.take 13 ≠ "REPLACED_ALT:".data ∧
    "NOT READY_NO_REPLACEMENT" ≠ "PRIMARY_READY" := by
  refine ⟨rfl, by decide, by decide, by decide, by decide⟩

/-- C4 amended: `backupList` is the sublist of the cocktail's FALLBACK
sequence that is READY and not consumed into `activeList`; the R1 worker
for slot `i` consults `backupList[i]`, which therefore coincides with the
FALLBACK aligned to slot `i`'s original PRIMARY only when no earlier
fallback was dropped — in particular it does when the whole FALLBACK
sequence is READY and unconsumed. -/
theorem backup_list_filter :
    (∀ c ready res, prepare_active_llms c ready = .ok res →
      res.backupList = (FALLBACK_MODELS c).filter
        (fun m => ready.contains m && !res.activeList.contains m)) ∧
    (∀ c ready res, prepare_active_llms c ready = .ok res →
      (∀ fb ∈ FALLBACK_MODELS c,
        ready.contains fb = true ∧ res.activeList.contains fb = false) →
      res.backupList = FALLBACK_MODELS c) := by
  have hfilter : ∀ c ready res, prepare_active_llms c ready = .ok res →
      res.backupList = (FALLBACK_MODELS c).filter
        (fun m => ready.contains m && !res.activeList.contains m) := by
    intro c ready res h
    rw [prepare_eq] at h
    split_ifs at h with h3 hq
    have hres := (Except.ok.injEq _ _).mp h
    rw [← hres]
  refine ⟨hfilter, ?_⟩
  intro c ready res h hall
  rw [hfilter c ready res h]
  refine List.filter_eq_self.mpr ?_
  intro m hm
  rw [(hall m hm).1, (hall m hm).2]
  rfl

/-- C4 witness: with the whole LUXE cocktail READY, activation keeps every
fallback, index-aligned with its primary. -/
theorem backup_list_filter_witness :
    luxeResAllReady.backupList = FALLBACK_MODELS .LUXE :=
  backup_list_filter.2 .LUXE luxeAllReady luxeResAllReady rfl (by decide)

/-- C4 counterexample: on SPEEDY with `openai/gpt-4o-mini` not READY, its
aligned fallback fills slot 0, so `backupList = [qwen, llama]` shifts: the
R1 worker for slot 1 consults `backupList[1] = meta-llama/llama-3.3-70b`,
not `FALLBACK[1] = qwen/qwen-2.5-72b` aligned with slot 1's original
primary `anthropic/claude-3-haiku` — as the executed R1 run shows. -/
theorem backup_alignment_counterexample :
    prepare_active_llms .SPEEDY speedyReadyNoMini = .ok speedyResNoMini ∧
    speedyResNoMini.backupList.get? 1 =
      some "meta-llama/llama-3.3-70b-instruct" ∧
    (FALLBACK_MODELS .SPEEDY).get? 1 = some "qwen/qwen-2.5-72b-instruct" ∧
    (PRIMARY_MODELS .SPEEDY).get? 1 = some "anthropic/claude-3-haiku" ∧
    speedyResNoMini.activeList.get? 1 = some "anthropic/claude-3-haiku" ∧
    (some "meta-llama/llama-3.3-70b-instruct" ≠
      some "qwen/qwen-2.5-72b-instruct") ∧
    (execute_parallel_queries speedyResNoMini.activeList
        speedyResNoMini.backupList
        [⟨.ok ⟨"g".data, 1⟩, .ok ⟨[], 0⟩⟩,
         ⟨.error "rate limited".data, .ok ⟨"via backup".data, 9⟩⟩,
         ⟨.ok ⟨"k".data, 2⟩, .ok ⟨[], 0⟩⟩]).1.map (fun r => r.model) =
      ["google/gemini-2.0-flash-exp:free", "meta-llama/llama-3.3-70b-instruct",
       "x-ai/grok-3-mini"] := by
  refine ⟨rfl, rfl, rfl, rfl, rfl, by decide, rfl⟩

/-- The three possible shapes of one R1 slot: primary success, backup
rescue, or an error record under the primary's id.  Each disjunct carries
the record produced, the `failed_models` contribution, and the reported
model id. -/
lemma process_primary_cases (backups : List String) (idx : Nat) (m : String)
    (oc : SlotOutcome) :
    (∃ s, oc.primary = Except.ok s ∧
      process_primary backups idx m oc =
        (⟨"INITIAL", m, s.text, s.ms, false⟩, []) ∧
      slotReportedModel backups idx m oc = m) ∨
    (∃ e b s, oc.primary = Except.error e ∧ backups.get? idx = some b ∧
      (b != "") = true ∧ oc.backup = Except.ok s ∧
      process_primary backups idx m oc =
        (⟨"INITIAL", b, s.text, s.ms, false⟩, [m]) ∧
      slotReportedModel backups idx m oc = b ∧ b ∈ backups) ∨
    (∃ e r, oc.primary = Except.error e ∧
      process_primary backups idx m oc = (r, [m]) ∧
      r.model = m ∧ r.error = true ∧ r.round = "INITIAL" ∧
      slotReportedModel backups idx m oc = m) := by
  cases hp : oc.primary with
  | ok s =>
      refine Or.inl ⟨s, rfl, ?_, ?_⟩
      · unfold process_primary
        rw [hp]
      · unfold slotReportedModel
        rw [hp]
  | error e =>
      cases hgb : backups.get? idx with
      | none =>
          refine Or.inr (Or.inr ⟨e, ⟨"INITIAL", m, "ERROR: ".data ++ e, 0, true⟩,
            rfl, ?_, rfl, rfl, rfl, ?_⟩)
          · unfold process_primary
            rw [hp, hgb]
          · unfold slotReportedModel
            rw [hp, hgb]
      | some b =>
          by_cases hb : (b != "") = true
          · cases hob : oc.backup with
            | ok s =>
                refine Or.inr (Or.inl ⟨e, b, s, rfl, rfl, hb, rfl, ?_, ?_,
                  List.get?_mem hgb⟩)
                · unfold process_primary
                  rw [hp, hgb]
                  dsimp only
                  rw [if_pos hb]
                  dsimp only
                  rw [hob]
                · unfold slotReportedModel
                  rw [hp, hgb]
                  dsimp only
                  rw [if_pos hb, hob]
            | error e2 =>
                refine Or.inr (Or.inr ⟨e,
                  ⟨"INITIAL", m, "ERROR: Primary failed (".data ++ e ++
                    "), Backup failed (".data ++ e2 ++ ")".data, 0, true⟩,
                  rfl, ?_, rfl, rfl, rfl, ?_⟩)
                · unfold process_primary
                  rw [hp, hgb]
                  dsimp only
                  rw [if_pos hb]
                  dsimp only
                  rw [hob]
                · unfold slotReportedModel
                  rw [hp, hgb]
                  dsimp only
                  rw [if_pos hb, hob]
          · have hbf : (b != "") = false := Bool.eq_false_iff.mpr hb
            refine Or.inr (Or.inr ⟨e, ⟨"INITIAL", m, "ERROR: ".data ++ e, 0, true⟩,
              rfl, ?_, rfl, rfl, rfl, ?_⟩)
            · unfold process_primary
              rw [hp, hgb]
              dsimp only
              rw [if_neg (by simp [hbf])]
            · unfold slotReportedModel
              rw [hp, hgb]
              dsimp only
              rw [if_neg (by simp [hbf])]

/-- Ids in `failed_models` are primaries. -/
lemma primaryFailedIds_sub :
    ∀ (ms : List String) (ocs : List SlotOutcome),
      ∀ m ∈ primaryFailedIds ms ocs, m ∈ ms := by
  intro ms
  induction ms with
  | nil => intro ocs m hm; cases hm
  | cons m0 ms ih =>
      intro ocs m hm
      cases ocs with
      | nil => cases hm
      | cons oc ocs =>
          rw [primaryFailedIds] at hm
          rcases List.mem_append.mp hm with h | h
          · cases hp : oc.primary with
            | ok s =>
                rw [hp] at h
                cases h
            | error e =>
                rw [hp] at h
                simp only [List.mem_singleton] at h
                subst h
                exact List.mem_cons_self _ _
          · exact List.mem_cons_of_mem _ (ih ocs m h)

/-- Structural facts about the R1 fan-out, by slot induction: the
`failed_models` list is exactly the primaries whose own call failed, the
output carries the per-slot reported model ids, the output has one record
per processed slot, and every output id is a primary or a backup. -/
lemma r1Go_spec (backups : List String) :
    ∀ (ms : List String) (ocs : List SlotOutcome) (idx : Nat),
      (r1Go backups idx ms ocs).2 = primaryFailedIds ms ocs ∧
      ((r1Go backups idx ms ocs).1.map (fun r => r.model) =
        reportedModels backups idx ms ocs) ∧
      (r1Go backups idx ms ocs).1.length = min ms.length ocs.length ∧
      (∀ r ∈ (r1Go backups idx ms ocs).1, r.model ∈ ms ∨ r.model ∈ backups) := by
  intro ms
  induction ms with
  | nil =>
      intro ocs idx
      refine ⟨rfl, rfl, by simp [r1Go], ?_⟩
      intro r hr
      cases hr
  | cons m0 ms ih =>
      intro ocs idx
      cases ocs with
      | nil =>
          refine ⟨rfl, rfl, by simp [r1Go], ?_⟩
          intro r hr
          cases hr
      | cons oc ocs =>
          obtain ⟨ih1, ih2, ih3, ih4⟩ := ih ocs (idx + 1)
          have heq : r1Go backups idx (m0 :: ms) (oc :: ocs) =
              ((process_primary backups idx m0 oc).1 ::
                (r1Go backups (idx + 1) ms ocs).1,
               (process_primary backups idx m0 oc).2 ++
                (r1Go backups (idx + 1) ms ocs).2) := rfl
          have hrep : reportedModels backups idx (m0 :: ms) (oc :: ocs) =
              slotReportedModel backups idx m0 oc ::
                reportedModels backups (idx + 1) ms ocs := rfl
          have hpf : primaryFailedIds (m0 :: ms) (oc :: ocs) =
              (match oc.primary with
                | .error _ => [m0] | .ok _ => []) ++ primaryFailedIds ms ocs := rfl
          rcases process_primary_cases backups idx m0 oc with
            ⟨s, hp, hpp, hsr⟩ | ⟨e, b, s, hp, hgb, hb, hob, hpp, hsr, hbmem⟩ |
            ⟨e, r, hp, hpp, hrm, hre, hrr, hsr⟩
          · refine ⟨?_, ?_, ?_, ?_⟩
            · rw [heq, hpf, hp, hpp, ih1]
            · rw [heq, hrep, hpp, hsr]
              simp only [List.map_cons, ih2]
            · rw [heq]
              simp only [List.length_cons, ih3]
              omega
            · intro r hr
              rw [heq] at hr
              rcases List.mem_cons.mp hr with h | h
              · rw [h, hpp]
                exact Or.inl (List.mem_cons_self _ _)
              · rcases ih4 r h with h | h
                · exact Or.inl (List.mem_cons_of_mem _ h)
                · exact Or.inr h
          · refine ⟨?_, ?_, ?_, ?_⟩
            · rw [heq, hpf, hp, hpp, ih1]
            · rw [heq, hrep, hpp, hsr]
              simp only [List.map_cons, ih2]
            · rw [heq]
              simp only [List.length_cons, ih3]
              omega
            · intro r hr
              rw [heq] at hr
              rcases List.mem_cons.mp hr with h | h
              · rw [h, hpp]
                exact Or.inr hbmem
              · rcases ih4 r h with h | h
                · exact Or.inl (List.mem_cons_of_mem _ h)
                · exact Or.inr h
          · refine ⟨?_, ?_, ?_, ?_⟩
            · rw [heq, hpf, hp, hpp, ih1]
            · rw [heq, hrep, hpp, hsr]
              simp only [List.map_cons, ih2, hrm]
            · rw [heq]
              simp only [List.length_cons, ih3]
              omega
            · intro r' hr'
              rw [heq] at hr'
              rcases List.mem_cons.mp hr' with h | h
              · rw [h, hpp, hrm]
                exact Or.inl (List.mem_cons_self _ _)
              · rcases ih4 r' h with h | h
                · exact Or.inl (List.mem_cons_of_mem _ h)
                · exact Or.inr h

/-- No model in `failed_models` carries a success record, provided the
primaries are duplicate-free and disjoint from the backups (which
activation guarantees). -/
lemma r1_failed_no_success (backups : List String) :
    ∀ (ms : List String) (ocs : List SlotOutcome) (idx : Nat),
      ms.Nodup → (∀ b ∈ backups, b ∉ ms) →
      ∀ m ∈ (r1Go backups idx ms ocs).2,
        ∀ r ∈ (r1Go backups idx ms ocs).1, r.model = m → r.error = true := by
  intro ms
  induction ms with
  | nil =>
      intro ocs idx _ _ m hm
      cases hm
  | cons m0 ms ih =>
      intro ocs idx hnd hdisj m hm r hr hModel
      cases ocs with
      | nil => cases hm
      | cons oc ocs =>
          have heq : r1Go backups idx (m0 :: ms) (oc :: ocs) =
              ((process_primary backups idx m0 oc).1 ::
                (r1Go backups (idx + 1) ms ocs).1,
               (process_primary backups idx m0 oc).2 ++
                (r1Go backups (idx + 1) ms ocs).2) := rfl
          rw [heq] at hm hr
          have hnd0 : m0 ∉ ms ∧ ms.Nodup := by
            simpa [List.nodup_cons] using hnd
          have hdisj0 : ∀ b ∈ backups, b ∉ ms := fun b hb =>
            fun hmem => hdisj b hb (List.mem_cons_of_mem _ hmem)
          have hm0nb : m0 ∉ backups := fun hmem =>
            hdisj m0 hmem (List.mem_cons_self _ _)
          have hfail2 : (r1Go backups (idx + 1) ms ocs).2 =
              primaryFailedIds ms ocs := (r1Go_spec backups ms ocs (idx + 1)).1
          have htail : ∀ r ∈ (r1Go backups (idx + 1) ms ocs).1,
              r.model ∈ ms ∨ r.model ∈ backups :=
            (r1Go_spec backups ms ocs (idx + 1)).2.2.2
          rcases process_primary_cases backups idx m0 oc with
            ⟨s, hp, hpp, _⟩ | ⟨e, b, s, hp, hgb, hb, hob, hpp, _, hbmem⟩ |
            ⟨e, r0, hp, hpp, hrm, hre, _, _⟩
          · rw [hpp] at hm hr
            simp only [List.nil_append] at hm
            have hm2 : m ∈ primaryFailedIds ms ocs := by
              rw [← hfail2]
              exact hm
            have hmms : m ∈ ms := primaryFailedIds_sub ms ocs m hm2
            rcases List.mem_cons.mp hr with h | h
            · have hm0 : m0 = m := by
                rw [h] at hModel
                simpa using hModel
              rw [← hm0] at hmms
              exact absurd hmms hnd0.1
            · exact ih ocs (idx + 1) hnd0.2 hdisj0 m hm r h hModel
          · rw [hpp] at hm hr
            rcases List.mem_append.mp hm with h0 | h0
            · simp only [List.mem_singleton] at h0
              rcases List.mem_cons.mp hr with h | h
              · have hbm : b = m := by
                  rw [h] at hModel
                  simpa using hModel
                refine absurd ?_ (hdisj b hbmem)
                rw [hbm, h0]
                exact List.mem_cons_self m0 ms
              · rcases htail r h with hh | hh
                · rw [hModel, h0] at hh
                  exact absurd hh hnd0.1
                · rw [hModel, h0] at hh
                  exact absurd hh hm0nb
            · have hm2 : m ∈ primaryFailedIds ms ocs := by
                rw [← hfail2]
                exact h0
              have hmms : m ∈ ms := primaryFailedIds_sub ms ocs m hm2
              rcases List.mem_cons.mp hr with h | h
              · have hbm : b = m := by
                  rw [h] at hModel
                  simpa using hModel
                refine absurd ?_ (hdisj0 b hbmem)
                rw [hbm]
                exact hmms
              · exact ih ocs (idx + 1) hnd0.2 hdisj0 m h0 r h hModel
          · rw [hpp] at hm hr
            rcases List.mem_append.mp hm with h0 | h0
            · simp only [List.mem_singleton] at h0
              rcases List.mem_cons.mp hr with h | h
              · rw [h]
                exact hre
              · rcases htail r h with hh | hh
                · rw [hModel, h0] at hh
                  exact absurd hh hnd0.1
                · rw [hModel, h0] at hh
                  exact absurd hh hm0nb
            · have hm2 : m ∈ primaryFailedIds ms ocs := by
                rw [← hfail2]
                exact h0
              have hmms : m ∈ ms := primaryFailedIds_sub ms ocs m hm2
              rcases List.mem_cons.mp hr with h | h
              · have hm0 : m0 = m := by
                  rw [h] at hModel
                  rw [← hrm]
                  exact hModel
                rw [← hm0] at hmms
                exact absurd hmms hnd0.1
              · exact ih ocs (idx + 1) hnd0.2 hdisj0 m h0 r h hModel

/-- C3 amended: a primary's id is appended to `failed_models` exactly when
its own call failed — even when the aligned backup then rescued the slot —
and `failed_models` never contains an id that appears in an `error = false`
record of the same R1 output, provided the actives are duplicate-free and
the backups disjoint from them (which activation guarantees). -/
theorem failed_models_policy :
    ∀ (models backups : List String) (ocs : List SlotOutcome),
      models.Nodup → (∀ b ∈ backups, b ∉ models) →
      (execute_parallel_queries models backups ocs).2 =
        primaryFailedIds models ocs ∧
      (∀ m ∈ (execute_parallel_queries models backups ocs).2,
        ∀ r ∈ (execute_parallel_queries models backups ocs).1,
          r.model = m → r.error = true) := by
  intro models backups ocs hnd hdisj
  exact ⟨(r1Go_spec backups models ocs 0).1,
    r1_failed_no_success backups models ocs 0 hnd hdisj⟩

/-- C3 witness: the policy evaluated on a two-slot run where slot 0's
primary fails but its backup succeeds — `failed_models` is exactly the
primaries whose own call raised. -/
theorem failed_models_policy_witness :
    (execute_parallel_queries ["m0", "m1"] ["b0", "b1"] twoSlotOutcomes).2 =
      primaryFailedIds ["m0", "m1"] twoSlotOutcomes :=
  (failed_models_policy ["m0", "m1"] ["b0", "b1"] twoSlotOutcomes
    (by decide) (by decide)).1

/-- C3 counterexample: slot 0 ultimately succeeds via its aligned backup
(`error = false` record under `b0`), yet `failed_models` still lists the
primary `m0` — the claim's "appended only when its slot ultimately failed"
does not hold. -/
theorem failed_models_counterexample :
    (execute_parallel_queries ["m0", "m1"] ["b0", "b1"] twoSlotOutcomes).2 =
      ["m0"] ∧
    (execute_parallel_queries ["m0", "m1"] ["b0", "b1"] twoSlotOutcomes).1.get? 0 =
      some ⟨"INITIAL", "b0", "t".data, 5, false⟩ :=
  ⟨rfl, rfl⟩

/-- C5 amended: the R1 output has exactly one record per processed slot,
and its model ids are, slot by slot, the primary's id — except that a slot
whose primary failed and whose aligned backup succeeded reports the backup
id **instead of** (not in addition to) the primary's.  The output id set is
therefore `activeList` with rescued primaries replaced by their backups,
not the union of `activeList` with the used backups. -/
theorem r1_output_models :
    ∀ (models backups : List String) (ocs : List SlotOutcome),
      (execute_parallel_queries models backups ocs).1.map (fun r => r.model) =
        reportedModels backups 0 models ocs ∧
      (execute_parallel_queries models backups ocs).1.length =
        min models.length ocs.length := by
  intro models backups ocs
  exact ⟨(r1Go_spec backups models ocs 0).2.1,
    (r1Go_spec backups models ocs 0).2.2.1⟩

/-- C5 counterexample: slot 0's backup `b0` succeeds, so the output id set
is `{b0, m1}` — the primary `m0` is a member of
`activeList ∪ {used backups}` but absent from the output, refuting the
claimed set equality. -/
theorem r1_output_union_counterexample :
    "m0" ∈ (["m0", "m1"] : List String) ∧
    (execute_parallel_queries ["m0", "m1"] ["b0", "b1"] twoSlotOutcomes).1.map
      (fun r => r.model) = ["b0", "m1"] ∧
    "m0" ∉ (execute_parallel_queries ["m0", "m1"] ["b0", "b1"]
      twoSlotOutcomes).1.map (fun r => r.model) := by
  refine ⟨by decide, rfl, by decide⟩

/-- The META record built for a model carries exactly that model id. -/
lemma buildMetaResponse_model (oracle : String → Except (List Char) GatewaySuccess)
    (m : String) : (buildMetaResponse oracle m).model = m := by
  unfold buildMetaResponse
  cases oracle m <;> rfl

/-- The META record's round is `META`. -/
lemma buildMetaResponse_round (oracle : String → Except (List Char) GatewaySuccess)
    (m : String) : (buildMetaResponse oracle m).round = "META" := by
  unfold buildMetaResponse
  cases oracle m <;> rfl

/-- When every non-error draft has a non-empty model id, the R2 membership
recomputation is exactly the non-error drafts' model list. -/
lemma r2ActiveList_eq (drafts : List Response)
    (h : ∀ d ∈ drafts, d.error = false → d.model ≠ "") :
    r2ActiveList drafts =
      (drafts.filter (fun d => !d.error)).map (fun d => d.model) := by
  induction drafts with
  | nil => rfl
  | cons d rest ih =>
      have hrest : ∀ x ∈ rest, x.error = false → x.model ≠ "" := fun x hx =>
        h x (List.mem_cons_of_mem _ hx)
      have hd := h d (List.mem_cons_self _ _)
      rw [r2ActiveList] at ih ⊢
      cases he : d.error with
      | true =>
          simp only [List.filterMap_cons, List.filter_cons, he, Bool.not_true,
            Bool.false_and, Bool.false_eq_true, if_false]
          exact ih hrest
      | false =>
          have hne : (d.model != "") = true := by
            simp [hd he]
          simp only [List.filterMap_cons, List.filter_cons, he, Bool.not_false,
            Bool.true_and, hne, if_true, List.map_cons]
          rw [ih hrest]

/-- Equation: `execute_meta_round` written without the intermediate `let`. -/
lemma execute_meta_round_eq (query : List Char) (drafts : List Response)
    (oracle : String → Except (List Char) GatewaySuccess) :
    execute_meta_round query drafts oracle =
      if query.isEmpty then .error .missingQuery
      else if (r2ActiveList drafts).length < 2 then .error .insufficientPeers
      else if drafts.isEmpty then .error .invalidDrafts
      else .ok ((r2ActiveList drafts).map (buildMetaResponse oracle)) := rfl

/-- Mapping the record builder then projecting the model id is the
identity on the membership list. -/
lemma map_buildMeta_model (oracle : String → Except (List Char) GatewaySuccess) :
    ∀ l : List String,
      List.map (fun r => r.model) (List.map (buildMetaResponse oracle) l) = l := by
  intro l
  induction l with
  | nil => rfl
  | cons a t iht => simp [buildMetaResponse_model, iht]

/-- C6: when R2 completes, its output pairs exactly one META record (with
the exact model id, success or `error: true`) with each non-error R1
record, so the output's id list — hence set — equals the non-error R1 ids;
and R2 fails with the insufficient-peers error whenever fewer than 2 R1
records are non-error.  The hypotheses (non-empty query, non-empty model
ids on non-error records) are guaranteed upstream by user-input validation
and by R1, which stamps every record with a cocktail model id. -/
theorem meta_membership :
    ∀ (query : List Char) (drafts : List Response)
      (oracle : String → Except (List Char) GatewaySuccess),
      query ≠ [] →
      (∀ d ∈ drafts, d.error = false → d.model ≠ "") →
      (∀ out, execute_meta_round query drafts oracle = .ok out →
        out.map (fun r => r.model) =
          (drafts.filter (fun d => !d.error)).map (fun d => d.model) ∧
        out.length = (drafts.filter (fun d => !d.error)).length ∧
        (∀ r ∈ out, r.round = "META")) ∧
      ((drafts.filter (fun d => !d.error)).length < 2 →
        execute_meta_round query drafts oracle = .error .insufficientPeers) := by
  intro query drafts oracle hq hmodels
  have hqe : query.isEmpty = false := by
    cases query with
    | nil => exact absurd rfl hq
    | cons c cs => rfl
  have hal := r2ActiveList_eq drafts hmodels
  constructor
  · intro out hout
    rw [execute_meta_round_eq, if_neg (by simp [hqe])] at hout
    by_cases h2 : (r2ActiveList drafts).length < 2
    · rw [if_pos h2] at hout
      exact Except.noConfusion hout
    · rw [if_neg h2] at hout
      by_cases h3 : drafts.isEmpty = true
      · rw [if_pos h3] at hout
        exact Except.noConfusion hout
      · rw [if_neg h3] at hout
        have hout2 := (Except.ok.injEq _ _).mp hout
        refine ⟨?_, ?_, ?_⟩
        · rw [← hout2, hal, map_buildMeta_model]
        · rw [← hout2, List.length_map, hal, List.length_map]
        · intro r hr
          rw [← hout2] at hr
          rcases List.mem_map.mp hr with ⟨m, _, hm⟩
          rw [← hm]
          exact buildMetaResponse_round oracle m
  · intro hlt
    rw [execute_meta_round_eq, if_neg (by simp [hqe]),
      if_pos (by rw [hal, List.length_map]; exact hlt)]

/-- C6 witness: two non-error R1 drafts produce a two-record META output
carrying exactly their model ids. -/
theorem meta_membership_witness :
    (List.map (fun r => r.model)
      [buildMetaResponse (fun _ => .ok ⟨"c".data, 1⟩) "m1",
       buildMetaResponse (fun _ => .ok ⟨"c".data, 1⟩) "m2"]) =
      (List.filter (fun d => !d.error)
        [(⟨"INITIAL", "m1", "a".data, 3, false⟩ : Response),
         ⟨"INITIAL", "m2", "b".data, 4, false⟩]).map (fun d => d.model) :=
  ((meta_membership "q".data
      [⟨"INITIAL", "m1", "a".data, 3, false⟩,
       ⟨"INITIAL", "m2", "b".data, 4, false⟩]
      (fun _ => .ok ⟨"c".data, 1⟩)
      (by decide) (by decide)).1
    [buildMetaResponse (fun _ => .ok ⟨"c".data, 1⟩) "m1",
     buildMetaResponse (fun _ => .ok ⟨"c".data, 1⟩) "m2"] rfl).1

end UltrAI
